import Mathlib

/-!
Shallow embedding of `src/bot.py` (Telegram-Wonder).

The program keeps a process-wide `conversation_history : Dict[int, List[Tuple[str, str]]]`
(a `defaultdict(list)`), capped at `MAX_HISTORY = 10` turns per user.  We model the
store as a total function from user ids to turn lists (the `defaultdict` default is
the empty list).  External effects are passed in explicitly:

* the completion API call (`client.chat.completions.create`) becomes a function
  `List Turn → Except String String` (error = the call raised);
* the transcription API call becomes an `Except String String` value;
* the voice-file download becomes an `Except String Unit` value;
* `os.getenv('SYSTEM_PROMPT', default)` becomes an `Option String` parameter
  (`none` = variable unset; `some s` = variable set to `s`);
* the localized date and time strings computed from `datetime.now` are passed in
  as opaque strings (the claims do not concern their formatting).

Python handlers mutate the global dict; here each handler takes the store and
returns the updated store together with the value delivered to the user.
-/

namespace TelegramWonder

/-- ConversationTurn: a (role, content) pair, as stored in the Python history lists
and as sent to the completion API (`{"role": r, "content": c}`). -/
abbrev Turn := String × String

/-- Store: the process-wide mapping user id → history list.  `defaultdict(list)`
makes lookup total with default `[]`, so a total function is the faithful model. -/
abbrev Store := Int → List Turn

/-- MAX_HISTORY constant from bot.py line 29. -/
def MAX_HISTORY : Nat := 10

/-- Initial value of the global `conversation_history` dict: every user maps to
the empty history (bot.py line 28). -/
def conversation_history : Store := fun _ => []

/-- Truncation step of `update_conversation_history` (bot.py lines 45-46):
`if len(h) > MAX_HISTORY: h = h[-MAX_HISTORY:]`.  Python `h[-n:]` is
`List.drop (h.length - n) h`. -/
def truncate_history (h : List Turn) : List Turn :=
  if h.length > MAX_HISTORY then h.drop (h.length - MAX_HISTORY) else h

/-- update_conversation_history (bot.py lines 41-46): append the turn to the
user's list, then keep only the last MAX_HISTORY entries. -/
def update_conversation_history (store : Store) (user_id : Int) (role content : String) :
    Store :=
  fun u =>
    if u = user_id then truncate_history (store user_id ++ [(role, content)])
    else store u

/-- Default system prompt, the second argument of `os.getenv` at bot.py line 59. -/
def default_system_prompt : String := "You are a helpful assistant."

/-- Model of `os.getenv('SYSTEM_PROMPT', 'You are a helpful assistant.')`
(bot.py line 59): the default is used only when the variable is unset (`none`);
a set-but-empty variable yields the empty string. -/
def getenv_system_prompt (env : Option String) : String :=
  env.getD default_system_prompt

/-- Time-aware system prompt (bot.py line 62): the base prompt followed by the
fixed date/time sentence. -/
def time_aware_prompt (env : Option String) (date_str time_str : String) : String :=
  getenv_system_prompt env ++
    (" The current date is " ++ date_str ++ " and the time is " ++ time_str ++
      " Pacific Time.")

/-- build_messages (bot.py lines 48-72): system message, then the user's stored
history in order, then the new user message. -/
def build_messages (env : Option String) (date_str time_str : String)
    (store : Store) (user_id : Int) (new_message : String) : List Turn :=
  [("system", time_aware_prompt env date_str time_str)]
    ++ store user_id
    ++ [("user", new_message)]

/-- process_message (bot.py lines 74-94): append the user turn, build the
message list from the updated history, call the completion API; on success
append the assistant turn and return the reply, on failure the exception
propagates with the user turn already recorded. -/
def process_message (completion : List Turn → Except String String)
    (env : Option String) (date_str time_str : String)
    (store : Store) (user_id : Int) (message_text : String) :
    Store × Except String String :=
  let store1 := update_conversation_history store user_id "user" message_text
  let messages := build_messages env date_str time_str store1 user_id message_text
  match completion messages with
  | Except.error e => (store1, Except.error e)
  | Except.ok ai_response =>
      (update_conversation_history store1 user_id "assistant" ai_response,
        Except.ok ai_response)

/-- Fixed apology sent by handle_message's except branch (bot.py line 151). -/
def TEXT_ERROR_REPLY : String :=
  "I apologize, but I encountered an error. Please try again later."

/-- handle_message (bot.py lines 137-151): run process_message; deliver its reply
on success, the fixed apology if it raised. -/
def handle_message (completion : List Turn → Except String String)
    (env : Option String) (date_str time_str : String)
    (store : Store) (user_id : Int) (user_message : String) : Store × String :=
  match process_message completion env date_str time_str store user_id user_message with
  | (s, Except.ok ai_response) => (s, ai_response)
  | (s, Except.error _) => (s, TEXT_ERROR_REPLY)

/-- Fixed apology sent by handle_voice's except branch (bot.py line 135). -/
def VOICE_ERROR_REPLY : String :=
  "I apologize, but I encountered an error processing your voice message. Please try again or send your message as text."

/-- Observable outcome of one handle_voice run: final store, reply text delivered
to the user, and whether `os.unlink(temp_file.name)` was executed. -/
structure VoiceOutcome where
  store : Store
  reply : String
  temp_file_deleted : Bool

/-- handle_voice (bot.py lines 96-135).  Control flow of the source: inside the
try block, the voice file is downloaded into a named temporary file created with
`delete=False`, transcription runs on it, and only after the `with` block does
`os.unlink(temp_file.name)` run; then the transcript is processed like a text
message.  Any exception jumps to the except branch, which replies with the fixed
apology and does not delete the file.  So a download or transcription failure
skips the unlink, while a completion failure happens after it. -/
def handle_voice (download : Except String Unit)
    (transcription : Except String String)
    (completion : List Turn → Except String String)
    (env : Option String) (date_str time_str : String)
    (store : Store) (user_id : Int) : VoiceOutcome :=
  match download with
  | Except.error _ => ⟨store, VOICE_ERROR_REPLY, false⟩
  | Except.ok _ =>
    match transcription with
    | Except.error _ => ⟨store, VOICE_ERROR_REPLY, false⟩
    | Except.ok transcribed_text =>
      match process_message completion env date_str time_str store user_id
          transcribed_text with
      | (s, Except.ok ai_response) => ⟨s, ai_response, true⟩
      | (s, Except.error _) => ⟨s, VOICE_ERROR_REPLY, true⟩

/-- start (bot.py lines 31-35): clears the user's history. -/
def start (store : Store) (user_id : Int) : Store :=
  fun u => if u = user_id then [] else store u

/-- clear_history (bot.py lines 153-157): clears the user's history. -/
def clear_history (store : Store) (user_id : Int) : Store :=
  fun u => if u = user_id then [] else store u

/-- Inbound platform events, one per handler registered in main
(bot.py lines 165-169).  External-call outcomes travel with the event. -/
inductive Event where
  | startCmd (user_id : Int)
  | helpCmd
  | clearCmd (user_id : Int)
  | textMsg (user_id : Int) (text : String)
      (completion : List Turn → Except String String)
      (env : Option String) (date_str time_str : String)
  | voiceMsg (user_id : Int) (download : Except String Unit)
      (transcription : Except String String)
      (completion : List Turn → Except String String)
      (env : Option String) (date_str time_str : String)

/-- Effect of one inbound event on the store (help_command never mutates it). -/
def step (store : Store) (e : Event) : Store :=
  match e with
  | Event.startCmd u => start store u
  | Event.helpCmd => store
  | Event.clearCmd u => clear_history store u
  | Event.textMsg u text c env ds ts => (handle_message c env ds ts store u text).1
  | Event.voiceMsg u d tr c env ds ts => (handle_voice d tr c env ds ts store u).store

/-- Store reached after a sequence of handler invocations, starting from the
fresh `conversation_history` dict. -/
def run (events : List Event) : Store :=
  events.foldl step conversation_history

/-- Sequence of appends to one user's history, each through
update_conversation_history. -/
def run_appends (store : Store) (u : Int) (ts : List Turn) : Store :=
  ts.foldl (fun s t => update_conversation_history s u t.1 t.2) store

/-! Helper lemmas about the truncation step and the store operations. -/

theorem truncate_history_eq_drop (h : List Turn) :
    truncate_history h = h.drop (h.length - MAX_HISTORY) := by
  unfold truncate_history
  split
  · rfl
  · next hle =>
    have h0 : h.length - MAX_HISTORY = 0 := by omega
    rw [h0, List.drop_zero]

theorem truncate_history_length_le (h : List Turn) :
    (truncate_history h).length ≤ MAX_HISTORY := by
  rw [truncate_history_eq_drop, List.length_drop]
  have hM : MAX_HISTORY = 10 := rfl
  omega

theorem truncate_history_of_le (h : List Turn) (hle : h.length ≤ MAX_HISTORY) :
    truncate_history h = h := by
  unfold truncate_history
  exact if_neg (Nat.not_lt.mpr hle)

theorem update_self (store : Store) (u : Int) (r c : String) :
    update_conversation_history store u r c u = truncate_history (store u ++ [(r, c)]) := by
  simp [update_conversation_history]

theorem update_other (store : Store) (u v : Int) (r c : String) (hne : v ≠ u) :
    update_conversation_history store u r c v = store v := by
  simp [update_conversation_history, hne]

theorem take_append_take {α : Type} (n : Nat) (x y : List α) :
    (x ++ y.take n).take n = (x ++ y).take n := by
  rw [List.take_append_eq_append_take, List.take_append_eq_append_take, List.take_take,
    Nat.min_eq_left (Nat.sub_le n x.length)]

theorem drop_sub_eq_reverse_take {α : Type} (n : Nat) (l : List α) :
    l.drop (l.length - n) = (l.reverse.take n).reverse := by
  rw [List.take_reverse, List.reverse_reverse]

theorem truncate_truncate_append (l ts : List Turn) :
    truncate_history (truncate_history l ++ ts) = truncate_history (l ++ ts) := by
  simp only [truncate_history_eq_drop, drop_sub_eq_reverse_take]
  congr 1
  simp only [List.reverse_append, List.reverse_reverse]
  exact take_append_take MAX_HISTORY ts.reverse l.reverse

theorem run_appends_self (ts : List Turn) : ∀ (store : Store) (u : Int),
    (store u).length ≤ MAX_HISTORY →
    run_appends store u ts u = truncate_history (store u ++ ts) := by
  induction ts with
  | nil =>
    intro store u hle
    show store u = truncate_history (store u ++ [])
    rw [List.append_nil, truncate_history_of_le _ hle]
  | cons t ts ih =>
    intro store u hle
    show run_appends (update_conversation_history store u t.1 t.2) u ts u =
      truncate_history (store u ++ t :: ts)
    rw [ih _ u (by rw [update_self]; exact truncate_history_length_le _),
      update_self, truncate_truncate_append]
    congr 1
    simp

theorem mem_truncate_append_last (h : List Turn) (t : Turn) :
    t ∈ truncate_history (h ++ [t]) := by
  rw [truncate_history_eq_drop]
  have hM : MAX_HISTORY = 10 := rfl
  have hle : (h ++ [t]).length - MAX_HISTORY ≤ h.length := by
    simp only [List.length_append, List.length_singleton]
    omega
  rw [List.drop_append_of_le_length hle]
  exact List.mem_append_right _ (List.mem_singleton.mpr rfl)

theorem mem_of_mem_truncate (h : List Turn) (t : Turn) (ht : t ∈ truncate_history h) :
    t ∈ h := by
  rw [truncate_history_eq_drop] at ht
  exact List.mem_of_mem_drop ht

theorem process_message_err (completion : List Turn → Except String String)
    (env : Option String) (ds ts : String) (store : Store) (u : Int) (text e : String)
    (hc : completion (build_messages env ds ts
        (update_conversation_history store u "user" text) u text) = Except.error e) :
    process_message completion env ds ts store u text =
      (update_conversation_history store u "user" text, Except.error e) := by
  simp only [process_message]
  rw [hc]

theorem process_message_ok (completion : List Turn → Except String String)
    (env : Option String) (ds ts : String) (store : Store) (u : Int) (text ai : String)
    (hc : completion (build_messages env ds ts
        (update_conversation_history store u "user" text) u text) = Except.ok ai) :
    process_message completion env ds ts store u text =
      (update_conversation_history (update_conversation_history store u "user" text)
        u "assistant" ai, Except.ok ai) := by
  simp only [process_message]
  rw [hc]

/-- C2: after MAX_HISTORY + k appends (k ≥ 1) to one user's history starting
from the fresh store, the stored history is exactly the last MAX_HISTORY
appended turns in their original relative order — the oldest k are evicted
first and the order of the remainder is preserved — and after any prefix of
the append sequence the history length never exceeds MAX_HISTORY. -/
theorem history_cap_after_appends (u : Int) (ts : List Turn) (k i : Nat)
    (hk : 1 ≤ k) (hlen : ts.length = MAX_HISTORY + k) :
    run_appends conversation_history u ts u = ts.drop k ∧
    (run_appends conversation_history u (ts.take i) u).length ≤ MAX_HISTORY := by
  have hM : MAX_HISTORY = 10 := rfl
  constructor
  · rw [run_appends_self ts conversation_history u (Nat.zero_le _)]
    show truncate_history ([] ++ ts) = ts.drop k
    rw [List.nil_append, truncate_history_eq_drop, hlen]
    congr 1
    omega
  · rw [run_appends_self _ conversation_history u (Nat.zero_le _)]
    exact truncate_history_length_le _

theorem history_cap_after_appends_witness :
    run_appends conversation_history 0 (List.replicate 11 (("user", "x") : Turn)) 0 =
      (List.replicate 11 (("user", "x") : Turn)).drop 1 ∧
    (run_appends conversation_history 0
      ((List.replicate 11 (("user", "x") : Turn)).take 4) 0).length ≤ MAX_HISTORY :=
  history_cap_after_appends 0 (List.replicate 11 (("user", "x") : Turn)) 1 4
    (by decide) (by decide)

/-- C5: when the completion call fails during message processing, the final
store is exactly the prior store with the user turn appended (so no assistant
turn was added), that user turn is present in the user's history, and the
value delivered to the user is the fixed apology string. -/
theorem completion_failure_keeps_user_turn (completion : List Turn → Except String String)
    (env : Option String) (ds ts : String) (store : Store) (u : Int) (text e : String)
    (hc : completion (build_messages env ds ts
        (update_conversation_history store u "user" text) u text) = Except.error e) :
    (handle_message completion env ds ts store u text).2 = TEXT_ERROR_REPLY ∧
    (handle_message completion env ds ts store u text).1 =
      update_conversation_history store u "user" text ∧
    ("user", text) ∈ (handle_message completion env ds ts store u text).1 u := by
  unfold handle_message
  rw [process_message_err completion env ds ts store u text e hc]
  refine ⟨rfl, rfl, ?_⟩
  show ("user", text) ∈ update_conversation_history store u "user" text u
  rw [update_self]
  exact mem_truncate_append_last _ _

theorem completion_failure_keeps_user_turn_witness :
    (handle_message (fun _ => Except.error "boom") none "D" "T"
      conversation_history 0 "hi").2 = TEXT_ERROR_REPLY ∧
    (handle_message (fun _ => Except.error "boom") none "D" "T"
      conversation_history 0 "hi").1 =
      update_conversation_history conversation_history 0 "user" "hi" ∧
    ("user", "hi") ∈ (handle_message (fun _ => Except.error "boom") none "D" "T"
      conversation_history 0 "hi").1 0 :=
  completion_failure_keeps_user_turn (fun _ => Except.error "boom") none "D" "T"
    conversation_history 0 "hi" "boom" rfl

/-- C6: when the transcription call fails during voice handling, the store is
left completely unchanged and the user is sent the fixed voice apology. -/
theorem transcription_failure_no_mutation (e : String)
    (completion : List Turn → Except String String) (env : Option String)
    (ds ts : String) (store : Store) (u : Int) :
    (handle_voice (Except.ok ()) (Except.error e) completion env ds ts store u).store
      = store ∧
    (handle_voice (Except.ok ()) (Except.error e) completion env ds ts store u).reply
      = VOICE_ERROR_REPLY :=
  ⟨rfl, rfl⟩

/-- C9: clearing a user's history makes a subsequent get return the empty
sequence, and clear is idempotent on the whole store state. -/
theorem clear_then_get_empty_and_idempotent (store : Store) (u : Int) :
    clear_history store u u = [] ∧
    clear_history (clear_history store u) u = clear_history store u := by
  constructor
  · simp [clear_history]
  · funext v
    by_cases h : v = u <;> simp [clear_history, h]

/-- C10: every history-mutating operation for user u — the two appends of
process_message (in both its outcomes, since the completion function is
arbitrary), start's clear, and clear_history's clear — leaves the stored
history of every other user v unchanged. -/
theorem other_users_unchanged (completion : List Turn → Except String String)
    (env : Option String) (ds ts : String) (store : Store) (u v : Int) (text : String)
    (hne : v ≠ u) :
    (process_message completion env ds ts store u text).1 v = store v ∧
    start store u v = store v ∧
    clear_history store u v = store v := by
  refine ⟨?_, ?_, ?_⟩
  · cases hc : completion (build_messages env ds ts
        (update_conversation_history store u "user" text) u text) with
    | error e =>
      rw [process_message_err completion env ds ts store u text e hc]
      exact update_other _ _ _ _ _ hne
    | ok r =>
      rw [process_message_ok completion env ds ts store u text r hc]
      show update_conversation_history (update_conversation_history store u "user" text)
        u "assistant" r v = store v
      rw [update_other _ _ _ _ _ hne, update_other _ _ _ _ _ hne]
  · simp [start, hne]
  · simp [clear_history, hne]

theorem other_users_unchanged_witness :
    (process_message (fun _ => Except.ok "yo") none "D" "T"
      conversation_history 0 "hi").1 1 = conversation_history 1 ∧
    start conversation_history 0 1 = conversation_history 1 ∧
    clear_history conversation_history 0 1 = conversation_history 1 :=
  other_users_unchanged (fun _ => Except.ok "yo") none "D" "T"
    conversation_history 0 1 "hi" (by decide)

/-- C1 fails on the code: in the shared process path the user turn is appended
to the history before build_messages reads it, and build_messages appends the
new message again, so with an empty prior history the new message appears twice
in the built list, not exactly once. -/
theorem new_message_once_counterexample :
    ¬ (List.count (("user", "hi") : Turn)
        (build_messages none "D" "T"
          (update_conversation_history conversation_history 0 "user" "hi") 0 "hi") = 1) := by
  decide

/-- C1 amended: in the shared process path the new message appears exactly twice
in the built list (once from the just-appended history turn and once from the
assembler's own append), provided the prior stored history does not already
contain that exact user turn. -/
theorem new_message_appears_twice (env : Option String) (ds ts : String)
    (store : Store) (u : Int) (text : String)
    (h : (("user", text) : Turn) ∉ store u) :
    List.count (("user", text) : Turn)
      (build_messages env ds ts
        (update_conversation_history store u "user" text) u text) = 2 := by
  have hsys : List.count (("user", text) : Turn)
      [(("system", time_aware_prompt env ds ts) : Turn)] = 0 := by
    rw [List.count_eq_zero]
    intro hmem
    rw [List.mem_singleton] at hmem
    have hfst : ("user" : String) = "system" := congrArg Prod.fst hmem
    exact absurd hfst (by decide)
  have hlast : List.count (("user", text) : Turn) [(("user", text) : Turn)] = 1 :=
    List.count_singleton_self _
  have hhist : List.count (("user", text) : Turn)
      (truncate_history (store u ++ [(("user", text) : Turn)])) = 1 := by
    rw [truncate_history_eq_drop]
    have hM : MAX_HISTORY = 10 := rfl
    have hle : (store u ++ [(("user", text) : Turn)]).length - MAX_HISTORY ≤
        (store u).length := by
      simp only [List.length_append, List.length_singleton]
      omega
    rw [List.drop_append_of_le_length hle, List.count_append]
    have hdrop : List.count (("user", text) : Turn)
        ((store u).drop ((store u ++ [(("user", text) : Turn)]).length - MAX_HISTORY)) = 0 := by
      rw [List.count_eq_zero]
      intro hmem
      exact h (List.mem_of_mem_drop hmem)
    rw [hdrop, hlast]
  unfold build_messages
  rw [update_self, List.count_append, List.count_append, hsys, hhist, hlast]

theorem new_message_appears_twice_witness :
    List.count (("user", "hi") : Turn)
      (build_messages none "D" "T"
        (update_conversation_history conversation_history 0 "user" "hi") 0 "hi") = 2 :=
  new_message_appears_twice none "D" "T" conversation_history 0 "hi" (by decide)

/-- C3: for any stored history whose turns carry only the roles user and
assistant (the only roles the handlers ever store), build_messages starts with
the single system-role entry, contains exactly one system-role entry in total,
ends with the user-role entry carrying the new message, and holds the stored
history in between, in stored order. -/
theorem build_messages_shape (env : Option String) (ds ts : String)
    (store : Store) (u : Int) (m : String)
    (hroles : ∀ t ∈ store u, Prod.fst t = "user" ∨ Prod.fst t = "assistant") :
    (build_messages env ds ts store u m).head? =
      some ("system", time_aware_prompt env ds ts) ∧
    List.countP (fun t => Prod.fst t == "system")
      (build_messages env ds ts store u m) = 1 ∧
    (build_messages env ds ts store u m).getLast? = some ("user", m) ∧
    (build_messages env ds ts store u m).drop 1 = store u ++ [("user", m)] := by
  refine ⟨rfl, ?_, ?_, rfl⟩
  · unfold build_messages
    rw [List.countP_append, List.countP_append]
    have h1 : List.countP (fun t => Prod.fst t == "system")
        [(("system", time_aware_prompt env ds ts) : Turn)] = 1 := by
      simp [List.countP_cons]
    have h2 : List.countP (fun t => Prod.fst t == "system") (store u) = 0 := by
      rw [List.countP_eq_zero]
      intro t ht
      rcases hroles t ht with hu | ha
      · rw [hu]; decide
      · rw [ha]; decide
    have h3 : List.countP (fun t => Prod.fst t == "system")
        [(("user", m) : Turn)] = 0 := by
      simp [List.countP_cons]
    rw [h1, h2, h3]
  · unfold build_messages
    exact List.getLast?_concat _

theorem build_messages_shape_witness :
    (build_messages none "D" "T" conversation_history 0 "hi").head? =
      some ("system", time_aware_prompt none "D" "T") ∧
    List.countP (fun t => Prod.fst t == "system")
      (build_messages none "D" "T" conversation_history 0 "hi") = 1 ∧
    (build_messages none "D" "T" conversation_history 0 "hi").getLast? =
      some ("user", "hi") ∧
    (build_messages none "D" "T" conversation_history 0 "hi").drop 1 =
      conversation_history 0 ++ [("user", "hi")] :=
  build_messages_shape none "D" "T" conversation_history 0 "hi"
    (by intro t ht; simp [conversation_history] at ht)

/-- C4 fails on the code: `os.unlink` sits after the `with` block but inside the
try block, so when the transcription call raises, control jumps to the except
branch and the temporary audio file is never deleted.  Concretely, a run whose
download succeeds and whose transcription fails ends with the file not deleted. -/
theorem temp_file_deleted_counterexample :
    ¬ ((handle_voice (Except.ok ()) (Except.error "transcription failed")
        (fun _ => Except.ok "reply") none "D" "T"
        conversation_history 0).temp_file_deleted = true) := by
  decide

/-- C4 amended: the temporary audio file is deleted exactly when both the
download and the transcription succeed; on a download or transcription failure
the except branch is taken before the unlink and the file is leaked.  (A later
completion failure does not leak it, since the unlink precedes processing.) -/
theorem temp_file_deleted_iff (d : Except String Unit) (tr : Except String String)
    (completion : List Turn → Except String String) (env : Option String)
    (ds ts : String) (store : Store) (u : Int) :
    (handle_voice d tr completion env ds ts store u).temp_file_deleted = true ↔
      (∃ x, d = Except.ok x) ∧ (∃ s, tr = Except.ok s) := by
  cases d with
  | error e => simp [handle_voice]
  | ok x =>
    cases tr with
    | error e => simp [handle_voice]
    | ok s =>
      simp only [handle_voice]
      rcases hr : process_message completion env ds ts store u s with ⟨s2, r⟩
      cases r <;> simp

/-- C7 fails on the code: `os.getenv('SYSTEM_PROMPT', default)` substitutes the
default only when the variable is unset; when SYSTEM_PROMPT is set to the empty
string the assembled system content is just the date/time sentence and does not
start with the default prefix. -/
theorem default_substitution_counterexample :
    (build_messages (some "") "D" "T" conversation_history 0 "m").head? =
      some ("system", " The current date is D and the time is T Pacific Time.") ∧
    default_system_prompt.data.isPrefixOf
      " The current date is D and the time is T Pacific Time.".data = false := by
  constructor
  · decide
  · decide

/-- C7 amended: only when the SYSTEM_PROMPT variable is unset is the default
substituted; the assembled system message content then starts with the literal
default prefix. -/
theorem default_substituted_when_unset (ds ts : String) (store : Store) (u : Int)
    (m : String) :
    (build_messages none ds ts store u m).head? =
      some ("system", time_aware_prompt none ds ts) ∧
    default_system_prompt.data.isPrefixOf (time_aware_prompt none ds ts).data = true := by
  refine ⟨rfl, ?_⟩
  rw [List.isPrefixOf_iff_prefix]
  show default_system_prompt.data <+:
    (default_system_prompt ++
      (" The current date is " ++ ds ++ " and the time is " ++ ts ++
        " Pacific Time.")).data
  rw [String.data_append]
  exact List.prefix_append _ _

theorem roles_ok_update (store : Store) (u : Int) (r c : String)
    (hr : r = "user" ∨ r = "assistant")
    (hs : ∀ w t, t ∈ store w → Prod.fst t = "user" ∨ Prod.fst t = "assistant") :
    ∀ w t, t ∈ update_conversation_history store u r c w →
      Prod.fst t = "user" ∨ Prod.fst t = "assistant" := by
  intro w t ht
  by_cases hw : w = u
  · subst hw
    rw [update_self] at ht
    rcases List.mem_append.mp (mem_of_mem_truncate _ _ ht) with h1 | h2
    · exact hs w t h1
    · rw [List.mem_singleton] at h2
      subst h2
      exact hr
  · rw [update_other _ _ _ _ _ hw] at ht
    exact hs w t ht

theorem roles_ok_process (completion : List Turn → Except String String)
    (env : Option String) (ds ts : String) (store : Store) (u : Int) (text : String)
    (hs : ∀ w t, t ∈ store w → Prod.fst t = "user" ∨ Prod.fst t = "assistant") :
    ∀ w t, t ∈ (process_message completion env ds ts store u text).1 w →
      Prod.fst t = "user" ∨ Prod.fst t = "assistant" := by
  cases hc : completion (build_messages env ds ts
      (update_conversation_history store u "user" text) u text) with
  | error e =>
    rw [process_message_err completion env ds ts store u text e hc]
    exact roles_ok_update store u "user" text (Or.inl rfl) hs
  | ok r =>
    rw [process_message_ok completion env ds ts store u text r hc]
    exact roles_ok_update _ u "assistant" r (Or.inr rfl)
      (roles_ok_update store u "user" text (Or.inl rfl) hs)

theorem roles_ok_step (store : Store) (e : Event)
    (hs : ∀ w t, t ∈ store w → Prod.fst t = "user" ∨ Prod.fst t = "assistant") :
    ∀ w t, t ∈ step store e w → Prod.fst t = "user" ∨ Prod.fst t = "assistant" := by
  cases e with
  | startCmd v =>
    intro w t ht
    by_cases hw : w = v
    · simp [step, start, hw] at ht
    · simp only [step, start, if_neg hw] at ht
      exact hs w t ht
  | helpCmd => exact hs
  | clearCmd v =>
    intro w t ht
    by_cases hw : w = v
    · simp [step, clear_history, hw] at ht
    · simp only [step, clear_history, if_neg hw] at ht
      exact hs w t ht
  | textMsg v text c env ds ts =>
    intro w t ht
    have ht2 : t ∈ (handle_message c env ds ts store v text).1 w := ht
    have hhm : (handle_message c env ds ts store v text).1 =
        (process_message c env ds ts store v text).1 := by
      unfold handle_message
      rcases hp : process_message c env ds ts store v text with ⟨s2, r⟩
      cases r <;> rfl
    rw [hhm] at ht2
    exact roles_ok_process c env ds ts store v text hs w t ht2
  | voiceMsg v d tr c env ds ts =>
    intro w t ht
    have ht2 : t ∈ (handle_voice d tr c env ds ts store v).store w := ht
    cases d with
    | error e => exact hs w t ht2
    | ok x =>
      cases tr with
      | error e => exact hs w t ht2
      | ok s =>
        have hv : (handle_voice (Except.ok x) (Except.ok s) c env ds ts store v).store =
            (process_message c env ds ts store v s).1 := by
          simp only [handle_voice]
          rcases hp : process_message c env ds ts store v s with ⟨s2, r⟩
          cases r <;> rfl
        rw [hv] at ht2
        exact roles_ok_process c env ds ts store v s hs w t ht2

theorem roles_ok_foldl (events : List Event) : ∀ (store : Store),
    (∀ w t, t ∈ store w → Prod.fst t = "user" ∨ Prod.fst t = "assistant") →
    ∀ w t, t ∈ events.foldl step store w →
      Prod.fst t = "user" ∨ Prod.fst t = "assistant" := by
  induction events with
  | nil => intro store hs; exact hs
  | cons e evs ih => intro store hs; exact ih _ (roles_ok_step store e hs)

/-- C8: in every store reachable from the fresh state by a sequence of handler
invocations, every stored turn of every user has role user or assistant — a
system-role turn is never stored, so the system prompt lives only in the
assembled request. -/
theorem stored_roles_user_or_assistant (events : List Event) (u : Int) (t : Turn)
    (ht : t ∈ run events u) : Prod.fst t = "user" ∨ Prod.fst t = "assistant" :=
  roles_ok_foldl events conversation_history
    (fun _ t2 ht2 => absurd ht2 (List.not_mem_nil t2)) u t ht

theorem stored_roles_user_or_assistant_witness :
    Prod.fst (("user", "hi") : Turn) = "user" ∨
    Prod.fst (("user", "hi") : Turn) = "assistant" :=
  stored_roles_user_or_assistant
    [Event.textMsg 0 "hi" (fun _ => Except.ok "yo") none "D" "T"] 0 ("user", "hi")
    (by decide)

end TelegramWonder
